import Mathlib

/-!
Shallow embedding of the gravity simulator core (`src/gravity/app.ts`):
2D vector utilities, body state with a capacity-bounded trail, and the
physical engine with trapezoid-rule integration over time chunks.
Numbers are modelled as real numbers; JS `Math.atan2 (y, x)` is modelled
as the argument of the complex number `x + y*i`.
-/

noncomputable section

/-- 2D point, as in `DOMPoint` (the `z`/`w` components are unused). -/
structure DOMPoint where
  x : ℝ
  y : ℝ
deriving Inhabited

/-- `Utils.distance`. -/
def distance (point1 point2 : DOMPoint) : ℝ :=
  Real.sqrt ((point1.x - point2.x) * (point1.x - point2.x) +
    (point1.y - point2.y) * (point1.y - point2.y))

/-- `Utils.trapezeArea`. -/
def trapezeArea (base1 base2 height : ℝ) : ℝ :=
  (base1 + base2) * height / 2

/-- `Utils.addVectors` (variadic, fold over the argument list starting from
`new DOMPoint()`). -/
def addVectors (vectors : List DOMPoint) : DOMPoint :=
  vectors.foldl (fun result v => ⟨result.x + v.x, result.y + v.y⟩) ⟨0, 0⟩

/-- `Utils.substractVectors`. -/
def substractVectors (vector1 vector2 : DOMPoint) : DOMPoint :=
  ⟨vector1.x - vector2.x, vector1.y - vector2.y⟩

/-- `Utils.multiplyVectorByScalar`. -/
def multiplyVectorByScalar (vector : DOMPoint) (scalar : ℝ) : DOMPoint :=
  ⟨vector.x * scalar, vector.y * scalar⟩

/-- JS `Math.atan2 (y, x)`, modelled as the complex argument of `x + y*i`. -/
def atan2 (y x : ℝ) : ℝ :=
  Complex.arg ⟨x, y⟩

/-- `BodyParameters` / `ReadonlyBodyParameters`. -/
structure BodyParameters where
  acceleration : DOMPoint
  velocity : DOMPoint
  baseVelocity : DOMPoint
  movement : DOMPoint
deriving Inhabited

/-- `fullVelocity` derived getter. -/
def fullVelocity (p : BodyParameters) : DOMPoint :=
  addVectors [p.baseVelocity, p.velocity]

/-- `PhysicalBody`: force, position, trail (`_path`), mass, parameters.
The trail is the underlying array of the `ObservableCollection`. -/
structure PhysicalBody where
  force : DOMPoint
  position : DOMPoint
  path : List DOMPoint
  mass : ℝ
  parameters : BodyParameters
deriving Inhabited

/-- `PhysicalBody.maxPathLength`. -/
def maxPathLength : ℕ := 255

/-- `PhysicalBody.reducePath`, triggered by the collection change event:
drop the entry at index 0 when the capacity is exceeded. -/
def reducePath (l : List DOMPoint) : List DOMPoint :=
  if maxPathLength < l.length then l.eraseIdx 0 else l

/-- The `PhysicalBody.position` setter: push the pre-mutation position onto
the trail (which runs `reducePath`), then store the new position. -/
def setPosition (b : PhysicalBody) (position : DOMPoint) : PhysicalBody :=
  { b with path := reducePath (b.path ++ [b.position]), position := position }

/-- `new PhysicalBody(position, mass, parameters)`. -/
def mkBody (position : DOMPoint) (mass : ℝ) (parameters : BodyParameters) : PhysicalBody :=
  ⟨⟨0, 0⟩, position, [], mass, parameters⟩

/-- `PhysicalEngine.G`. -/
def G : ℝ := 6.68e-11

/-- `PhysicalEngine.maxTimeDelta` (milliseconds). -/
def maxTimeDelta : ℝ := 10

/-- `PhysicalEngine.timeUnit`. -/
def timeUnit : ℝ := 1000

/-- `PhysicalEngine`: the body collection.  The wall-clock offset and the
speed factor only enter `update` through the product
`timeDelta = (now - timeOffset) * speed`, which we take as a parameter.
A body reference is modelled as its index in the collection (`indexOf`;
the collection holds no duplicate references). -/
structure PhysicalEngine where
  bodyes : List PhysicalBody

/-- Body lookup (`this._bodyes[i]`). -/
def bodyAt (e : PhysicalEngine) (i : ℕ) : PhysicalBody :=
  e.bodyes.getD i default

/-- Writing a body back into the collection slot `i`. -/
def setBodyAt (e : PhysicalEngine) (i : ℕ) (b : PhysicalBody) : PhysicalEngine :=
  ⟨e.bodyes.set i b⟩

/-- `PhysicalEngine.exists` / `getBodyIndex(...) != -1`. -/
def bodyExists (e : PhysicalEngine) (i : ℕ) : Prop :=
  i < e.bodyes.length

instance (e : PhysicalEngine) (i : ℕ) : Decidable (bodyExists e i) :=
  inferInstanceAs (Decidable (i < e.bodyes.length))

/-- One summand of the force loop in `computeForce`: the gravity formula
`G * m1 * m2 / d²` directed along `atan2` from the influenced body `i`
to the influencing body `j`. -/
def pairForceVec (e : PhysicalEngine) (i j : ℕ) : DOMPoint :=
  let b := bodyAt e i
  let o := bodyAt e j
  let forceValue := G * b.mass * o.mass /
    (distance b.position o.position * distance b.position o.position)
  let angle := atan2 (o.position.y - b.position.y) (o.position.x - b.position.x)
  ⟨forceValue * Real.cos angle, forceValue * Real.sin angle⟩

/-- The net force accumulated by `computeForce`'s loop for body `i`:
starting from the cleared force, add the pair force of every other body. -/
def gForceOn (e : PhysicalEngine) (i : ℕ) : DOMPoint :=
  (List.range e.bodyes.length).foldl
    (fun acc j => if j ≠ i then addVectors [acc, pairForceVec e i j] else acc) ⟨0, 0⟩

/-- The state change of `computeForce` on success: body `i`'s force is
cleared and rebuilt as `gForceOn`. -/
def applyForce (e : PhysicalEngine) (i : ℕ) : PhysicalEngine :=
  setBodyAt e i { bodyAt e i with force := gForceOn e i }

/-- `PhysicalEngine.computeForce`, with the `NotFound` throw as `Except`. -/
def computeForceE (e : PhysicalEngine) (i : ℕ) : Except String PhysicalEngine :=
  if bodyExists e i then Except.ok (applyForce e i) else Except.error "Can't find body"

/-- `PhysicalEngine.computeAcceleration`. -/
def computeAccelerationE (e : PhysicalEngine) (i : ℕ) : Except String DOMPoint :=
  if bodyExists e i then
    Except.ok (multiplyVectorByScalar (bodyAt e i).force (1 / (bodyAt e i).mass))
  else Except.error "Can't find body"

/-- `PhysicalEngine.computeVelocity`. -/
def computeVelocityE (e : PhysicalEngine) (i : ℕ) (timeDelta : ℝ) (acceleration : DOMPoint) :
    Except String DOMPoint :=
  if bodyExists e i then
    Except.ok ⟨trapezeArea (bodyAt e i).parameters.acceleration.x acceleration.x timeDelta,
      trapezeArea (bodyAt e i).parameters.acceleration.y acceleration.y timeDelta⟩
  else Except.error "Can't find body"

/-- `PhysicalEngine.computeMovement`. -/
def computeMovementE (e : PhysicalEngine) (i : ℕ) (timeDelta : ℝ) (velocity : DOMPoint) :
    Except String DOMPoint :=
  if bodyExists e i then
    Except.ok ⟨trapezeArea (bodyAt e i).parameters.velocity.x velocity.x timeDelta,
      trapezeArea (bodyAt e i).parameters.velocity.y velocity.y timeDelta⟩
  else Except.error "Can't find body"

/-- One chunk of `update`'s inner loop for body `i` with chunk duration
`computedTimeDelta` (milliseconds), error-free version: force, then
acceleration, velocity, movement, then apply position and parameters. -/
def stepBody (e : PhysicalEngine) (i : ℕ) (computedTimeDelta : ℝ) : PhysicalEngine :=
  let e1 := applyForce e i
  let b := bodyAt e1 i
  let acceleration := multiplyVectorByScalar b.force (1 / b.mass)
  let h := computedTimeDelta / timeUnit
  let velocity : DOMPoint :=
    ⟨trapezeArea b.parameters.acceleration.x acceleration.x h,
      trapezeArea b.parameters.acceleration.y acceleration.y h⟩
  let sample := addVectors [velocity, b.parameters.baseVelocity]
  let movement : DOMPoint :=
    ⟨trapezeArea b.parameters.velocity.x sample.x h,
      trapezeArea b.parameters.velocity.y sample.y h⟩
  let b2 := setPosition b (addVectors [movement, b.position])
  let b3 := { b2 with parameters :=
    ⟨acceleration,
      addVectors [velocity, b.parameters.velocity],
      b.parameters.baseVelocity,
      addVectors [movement, b.parameters.movement]⟩ }
  setBodyAt e1 i b3

/-- The same chunk, with every per-body operation going through its
`Except`-raising variant exactly as `update` calls them. -/
def stepBodyE (e : PhysicalEngine) (i : ℕ) (computedTimeDelta : ℝ) :
    Except String PhysicalEngine := do
  let e1 ← computeForceE e i
  let acceleration ← computeAccelerationE e1 i
  let h := computedTimeDelta / timeUnit
  let velocity ← computeVelocityE e1 i h acceleration
  let movement ← computeMovementE e1 i h
    (addVectors [velocity, (bodyAt e1 i).parameters.baseVelocity])
  let b := bodyAt e1 i
  let b2 := setPosition b (addVectors [movement, b.position])
  let b3 := { b2 with parameters :=
    ⟨acceleration,
      addVectors [velocity, b.parameters.velocity],
      b.parameters.baseVelocity,
      addVectors [movement, b.parameters.movement]⟩ }
  return setBodyAt e1 i b3

/-- `Math.ceil(timeDelta / maxTimeDelta)` as a chunk count (the `for`
loop runs no iterations when the ceiling is zero or negative). -/
def chunkCount (timeDelta : ℝ) : ℕ :=
  (⌈timeDelta / maxTimeDelta⌉).toNat

/-- `computedTimeDelta` of chunk number `chunk` (milliseconds). -/
def chunkDuration (timeDelta : ℝ) (chunk : ℕ) : ℝ :=
  min maxTimeDelta (timeDelta - chunk * maxTimeDelta)

/-- The chunk durations of one `update` call, in loop order. -/
def chunkDurations (timeDelta : ℝ) : List ℝ :=
  (List.range (chunkCount timeDelta)).map (chunkDuration timeDelta)

/-- The full inner `for` loop of `update` for body `i`. -/
def stepBodyChunks (e : PhysicalEngine) (i : ℕ) (timeDelta : ℝ) : PhysicalEngine :=
  (chunkDurations timeDelta).foldl (fun ee c => stepBody ee i c) e

/-- `PhysicalEngine.update` with `timeDelta = (now - timeOffset) * speed`
as the parameter: each body, in collection order, runs all its chunks. -/
def updateEngine (e : PhysicalEngine) (timeDelta : ℝ) : PhysicalEngine :=
  (List.range e.bodyes.length).foldl (fun ee i => stepBodyChunks ee i timeDelta) e

/-- The error-propagating form of `update` (a thrown `NotFound` aborts
the whole call). -/
def updateEngineE (e : PhysicalEngine) (timeDelta : ℝ) : Except String PhysicalEngine :=
  (List.range e.bodyes.length).foldlM
    (fun ee i => (chunkDurations timeDelta).foldlM (fun e2 c => stepBodyE e2 i c) ee) e

end

/-! ### Basic helper lemmas -/

theorem DOMPoint.ext_xy {p q : DOMPoint} (hx : p.x = q.x) (hy : p.y = q.y) : p = q := by
  cases p; cases q; simp_all

@[simp] theorem addVectors_pair (a b : DOMPoint) :
    addVectors [a, b] = ⟨a.x + b.x, a.y + b.y⟩ := by
  simp [addVectors]

@[simp] theorem addVectors_nil : addVectors [] = ⟨0, 0⟩ := rfl

theorem atan2_zero_of_pos {x : ℝ} (h : 0 < x) : atan2 0 x = 0 := by
  have hx : (⟨x, 0⟩ : ℂ) = (x : ℂ) := by apply Complex.ext <;> simp
  rw [atan2, hx, Complex.arg_ofReal_of_nonneg h.le]

theorem atan2_zero_of_neg {x : ℝ} (h : x < 0) : atan2 0 x = Real.pi := by
  have hx : (⟨x, 0⟩ : ℂ) = (x : ℂ) := by apply Complex.ext <;> simp
  rw [atan2, hx, Complex.arg_ofReal_of_neg h]

theorem cos_atan2 {y x : ℝ} (h : ¬(x = 0 ∧ y = 0)) :
    Real.cos (atan2 y x) = x / Real.sqrt (x * x + y * y) := by
  have hz : (⟨x, y⟩ : ℂ) ≠ 0 := by
    intro hc
    exact h ⟨congrArg Complex.re hc, congrArg Complex.im hc⟩
  rw [atan2, Complex.cos_arg hz, Complex.abs_apply, Complex.normSq_mk]

theorem sin_atan2 (y x : ℝ) :
    Real.sin (atan2 y x) = y / Real.sqrt (x * x + y * y) := by
  rw [atan2, Complex.sin_arg, Complex.abs_apply, Complex.normSq_mk]

theorem distance_axis (a b : ℝ) (h : a ≤ b) :
    distance ⟨a, 0⟩ ⟨b, 0⟩ = b - a := by
  rw [distance]
  show Real.sqrt ((a - b) * (a - b) + (0 - 0) * (0 - 0)) = b - a
  rw [show (a - b) * (a - b) + ((0:ℝ) - 0) * (0 - 0) = (b - a) ^ 2 by ring]
  exact Real.sqrt_sq (by linarith)

theorem G_pos : 0 < G := by norm_num [G]

@[simp] theorem length_setBodyAt (e : PhysicalEngine) (i : ℕ) (b : PhysicalBody) :
    (setBodyAt e i b).bodyes.length = e.bodyes.length := by
  simp [setBodyAt]

theorem bodyAt_setBodyAt_self {e : PhysicalEngine} {i : ℕ} (hi : i < e.bodyes.length)
    (b : PhysicalBody) : bodyAt (setBodyAt e i b) i = b := by
  simp [bodyAt, setBodyAt, List.getD, List.getElem?_set_self' , hi]

theorem bodyAt_setBodyAt_ne (e : PhysicalEngine) {i j : ℕ} (hij : j ≠ i)
    (b : PhysicalBody) : bodyAt (setBodyAt e i b) j = bodyAt e j := by
  simp [bodyAt, setBodyAt, List.getD, List.getElem?_set_ne (Ne.symm hij)]

@[simp] theorem length_applyForce (e : PhysicalEngine) (i : ℕ) :
    (applyForce e i).bodyes.length = e.bodyes.length := by
  simp [applyForce]

@[simp] theorem length_stepBody (e : PhysicalEngine) (i : ℕ) (d : ℝ) :
    (stepBody e i d).bodyes.length = e.bodyes.length := by
  simp [stepBody]

theorem bodyAt_applyForce_self {e : PhysicalEngine} {i : ℕ} (hi : i < e.bodyes.length) :
    bodyAt (applyForce e i) i = { bodyAt e i with force := gForceOn e i } := by
  rw [applyForce, bodyAt_setBodyAt_self hi]

theorem bodyAt_applyForce_ne (e : PhysicalEngine) {i j : ℕ} (hij : j ≠ i) :
    bodyAt (applyForce e i) j = bodyAt e j :=
  bodyAt_setBodyAt_ne e hij _

theorem bodyAt_stepBody_ne (e : PhysicalEngine) {i j : ℕ} (hij : j ≠ i) (d : ℝ) :
    bodyAt (stepBody e i d) j = bodyAt e j := by
  rw [stepBody]
  rw [bodyAt_setBodyAt_ne _ hij, bodyAt_applyForce_ne _ hij]

theorem bodyAt_stepBodyChunks_ne (e : PhysicalEngine) {i j : ℕ} (hij : j ≠ i) (t : ℝ) :
    bodyAt (stepBodyChunks e i t) j = bodyAt e j := by
  rw [stepBodyChunks]
  induction chunkDurations t generalizing e with
  | nil => rfl
  | cons c cs ih => rw [List.foldl_cons, ih, bodyAt_stepBody_ne _ hij]

@[simp] theorem length_stepBodyChunks (e : PhysicalEngine) (i : ℕ) (t : ℝ) :
    (stepBodyChunks e i t).bodyes.length = e.bodyes.length := by
  rw [stepBodyChunks]
  induction chunkDurations t generalizing e with
  | nil => rfl
  | cons c cs ih => rw [List.foldl_cons, ih, length_stepBody]

@[simp] theorem length_updateEngine (e : PhysicalEngine) (t : ℝ) :
    (updateEngine e t).bodyes.length = e.bodyes.length := by
  rw [updateEngine]
  have : ∀ (l : List ℕ) (e' : PhysicalEngine),
      (l.foldl (fun ee i => stepBodyChunks ee i t) e').bodyes.length = e'.bodyes.length := by
    intro l
    induction l with
    | nil => intro e'; rfl
    | cons j js ih => intro e'; rw [List.foldl_cons, ih, length_stepBodyChunks]
  exact this _ e

/-- Closed form of one sub-step for the stepped body itself. -/
theorem bodyAt_stepBody_self {e : PhysicalEngine} {i : ℕ} (hi : i < e.bodyes.length) (d : ℝ) :
    bodyAt (stepBody e i d) i =
      { force := gForceOn e i
        position :=
          ⟨((bodyAt e i).parameters.velocity.x +
              (((bodyAt e i).parameters.acceleration.x +
                  (gForceOn e i).x * (1 / (bodyAt e i).mass)) * (d / timeUnit) / 2 +
                (bodyAt e i).parameters.baseVelocity.x)) * (d / timeUnit) / 2 +
              (bodyAt e i).position.x,
            ((bodyAt e i).parameters.velocity.y +
              (((bodyAt e i).parameters.acceleration.y +
                  (gForceOn e i).y * (1 / (bodyAt e i).mass)) * (d / timeUnit) / 2 +
                (bodyAt e i).parameters.baseVelocity.y)) * (d / timeUnit) / 2 +
              (bodyAt e i).position.y⟩
        path := reducePath ((bodyAt e i).path ++ [(bodyAt e i).position])
        mass := (bodyAt e i).mass
        parameters :=
          ⟨⟨(gForceOn e i).x * (1 / (bodyAt e i).mass),
              (gForceOn e i).y * (1 / (bodyAt e i).mass)⟩,
            ⟨((bodyAt e i).parameters.acceleration.x +
                  (gForceOn e i).x * (1 / (bodyAt e i).mass)) * (d / timeUnit) / 2 +
                (bodyAt e i).parameters.velocity.x,
              ((bodyAt e i).parameters.acceleration.y +
                  (gForceOn e i).y * (1 / (bodyAt e i).mass)) * (d / timeUnit) / 2 +
                (bodyAt e i).parameters.velocity.y⟩,
            (bodyAt e i).parameters.baseVelocity,
            ⟨((bodyAt e i).parameters.velocity.x +
                (((bodyAt e i).parameters.acceleration.x +
                    (gForceOn e i).x * (1 / (bodyAt e i).mass)) * (d / timeUnit) / 2 +
                  (bodyAt e i).parameters.baseVelocity.x)) * (d / timeUnit) / 2 +
                (bodyAt e i).parameters.movement.x,
              ((bodyAt e i).parameters.velocity.y +
                (((bodyAt e i).parameters.acceleration.y +
                    (gForceOn e i).y * (1 / (bodyAt e i).mass)) * (d / timeUnit) / 2 +
                  (bodyAt e i).parameters.baseVelocity.y)) * (d / timeUnit) / 2 +
                (bodyAt e i).parameters.movement.y⟩⟩ } := by
  rw [stepBody]
  have hi1 : i < (applyForce e i).bodyes.length := by
    rw [length_applyForce]; exact hi
  simp only [bodyAt_setBodyAt_self hi1, bodyAt_applyForce_self hi, setPosition,
    multiplyVectorByScalar, trapezeArea, addVectors_pair]

/-- **C1.** For every body present in the engine's collection with mass > 0,
one integration sub-step of duration `d` milliseconds transforms the body's
state exactly as follows (per axis, with `h = d/1000`):
`newAcceleration = netForce/mass`;
`velocityIncrement = (parameters.acceleration + newAcceleration) * h / 2`;
`movement = (parameters.velocity + (velocityIncrement + baseVelocity)) * h / 2`;
then position becomes `position + movement`, `parameters.acceleration` is
replaced by `newAcceleration`, `parameters.velocity` becomes
`parameters.velocity + velocityIncrement`, and `parameters.movement` becomes
`parameters.movement + movement`. -/
theorem claim_C1 (e : PhysicalEngine) (i : ℕ) (d : ℝ)
    (hi : i < e.bodyes.length) (hm : 0 < (bodyAt e i).mass)
    (a dv mov : DOMPoint)
    (ha : a = ⟨(gForceOn e i).x / (bodyAt e i).mass, (gForceOn e i).y / (bodyAt e i).mass⟩)
    (hdv : dv = ⟨((bodyAt e i).parameters.acceleration.x + a.x) * (d / 1000) / 2,
      ((bodyAt e i).parameters.acceleration.y + a.y) * (d / 1000) / 2⟩)
    (hmov : mov = ⟨((bodyAt e i).parameters.velocity.x +
        (dv.x + (bodyAt e i).parameters.baseVelocity.x)) * (d / 1000) / 2,
      ((bodyAt e i).parameters.velocity.y +
        (dv.y + (bodyAt e i).parameters.baseVelocity.y)) * (d / 1000) / 2⟩) :
    (bodyAt (stepBody e i d) i).position =
        ⟨(bodyAt e i).position.x + mov.x, (bodyAt e i).position.y + mov.y⟩ ∧
    (bodyAt (stepBody e i d) i).parameters.acceleration = a ∧
    (bodyAt (stepBody e i d) i).parameters.velocity =
        ⟨(bodyAt e i).parameters.velocity.x + dv.x,
          (bodyAt e i).parameters.velocity.y + dv.y⟩ ∧
    (bodyAt (stepBody e i d) i).parameters.movement =
        ⟨(bodyAt e i).parameters.movement.x + mov.x,
          (bodyAt e i).parameters.movement.y + mov.y⟩ := by
  subst ha hdv hmov
  rw [bodyAt_stepBody_self hi]
  refine ⟨?_, ?_, ?_, ?_⟩ <;>
    apply DOMPoint.ext_xy <;>
    simp only [timeUnit] <;>
    ring

/-- A one-body engine used to witness C1 concretely. -/
def oneBodyEngine : PhysicalEngine :=
  ⟨[mkBody ⟨3, 4⟩ 1 ⟨⟨0, 0⟩, ⟨0, 0⟩, ⟨0, 0⟩, ⟨0, 0⟩⟩]⟩

theorem gForceOn_oneBodyEngine : gForceOn oneBodyEngine 0 = ⟨0, 0⟩ := by
  simp [gForceOn, oneBodyEngine, List.range_succ]

theorem claim_C1_witness :
    (bodyAt (stepBody oneBodyEngine 0 10) 0).position =
        ⟨(bodyAt oneBodyEngine 0).position.x + (⟨0, 0⟩ : DOMPoint).x,
          (bodyAt oneBodyEngine 0).position.y + (⟨0, 0⟩ : DOMPoint).y⟩ ∧
    (bodyAt (stepBody oneBodyEngine 0 10) 0).parameters.acceleration = ⟨0, 0⟩ ∧
    (bodyAt (stepBody oneBodyEngine 0 10) 0).parameters.velocity =
        ⟨(bodyAt oneBodyEngine 0).parameters.velocity.x + (⟨0, 0⟩ : DOMPoint).x,
          (bodyAt oneBodyEngine 0).parameters.velocity.y + (⟨0, 0⟩ : DOMPoint).y⟩ ∧
    (bodyAt (stepBody oneBodyEngine 0 10) 0).parameters.movement =
        ⟨(bodyAt oneBodyEngine 0).parameters.movement.x + (⟨0, 0⟩ : DOMPoint).x,
          (bodyAt oneBodyEngine 0).parameters.movement.y + (⟨0, 0⟩ : DOMPoint).y⟩ := by
  refine claim_C1 oneBodyEngine 0 10 (by simp [oneBodyEngine]) (by simp [oneBodyEngine, bodyAt, mkBody])
    ⟨0, 0⟩ ⟨0, 0⟩ ⟨0, 0⟩ ?_ ?_ ?_
  · rw [gForceOn_oneBodyEngine]
    apply DOMPoint.ext_xy <;> simp
  · apply DOMPoint.ext_xy <;> simp [oneBodyEngine, bodyAt, mkBody]
  · apply DOMPoint.ext_xy <;> simp [oneBodyEngine, bodyAt, mkBody]

/-- Chunk-duration sums: `n+1` chunks of `min 10 (t - 10k)` sum to `t`
when `10n < t ≤ 10(n+1)`. -/
theorem chunk_sum_aux :
    ∀ (n : ℕ) (t : ℝ), 10 * n < t → t ≤ 10 * (n + 1) →
      (((List.range (n + 1)).map fun (k : ℕ) => min (10 : ℝ) (t - (k : ℝ) * 10)).sum = t) := by
  intro n
  induction n with
  | zero =>
    intro t h1 h2
    push_cast at h1 h2
    simp [List.range_succ, min_eq_right (by linarith : t ≤ (10 : ℝ))]
  | succ m ih =>
    intro t h1 h2
    push_cast at h1 h2
    rw [List.range_succ_eq_map, List.map_cons, List.sum_cons, List.map_map]
    have hcomp : ((fun (k : ℕ) => min (10 : ℝ) (t - (k : ℝ) * 10)) ∘ Nat.succ) =
        fun (k : ℕ) => min (10 : ℝ) ((t - 10) - (k : ℝ) * 10) := by
      funext k
      show min (10 : ℝ) (t - ((k + 1 : ℕ) : ℝ) * 10) = min (10 : ℝ) ((t - 10) - (k : ℝ) * 10)
      push_cast
      ring_nf
    rw [hcomp]
    have hm0 : (0 : ℝ) ≤ (m : ℝ) := Nat.cast_nonneg m
    have h10 : (10 : ℝ) < t := by nlinarith
    have hrec := ih (t - 10) (by linarith) (by linarith)
    rw [hrec]
    simp only [Nat.cast_zero, zero_mul, sub_zero, min_eq_left h10.le]
    ring

/-- **C2.** For every `update()` call with `elapsed` strictly positive, each
body is advanced through exactly `⌈elapsed / 10⌉` sequential sub-steps
(`maxSubStepDuration = 10` ms), sub-step `k` having duration
`min 10 (elapsed - 10k)`; every sub-step duration is positive and at most
10 ms, and the durations sum to `elapsed`.  The last conjunct records
that `update` is exactly the per-body fold over these chunk durations. -/
theorem claim_C2 (t : ℝ) (ht : 0 < t) :
    (chunkDurations t).length = chunkCount t ∧
    ((chunkCount t : ℤ) = ⌈t / 10⌉) ∧
    (∀ k, k < chunkCount t → (chunkDurations t).getD k 0 = min 10 (t - (k : ℝ) * 10)) ∧
    (∀ k, k < chunkCount t →
      0 < (chunkDurations t).getD k 0 ∧ (chunkDurations t).getD k 0 ≤ 10) ∧
    (chunkDurations t).sum = t ∧
    updateEngine = fun e timeDelta => (List.range e.bodyes.length).foldl
      (fun ee i => (chunkDurations timeDelta).foldl (fun e2 c => stepBody e2 i c) ee) e := by
  have hceil : (0 : ℤ) < ⌈t / 10⌉ := Int.ceil_pos.mpr (by positivity)
  have hcast : (chunkCount t : ℤ) = ⌈t / 10⌉ := by
    rw [chunkCount, maxTimeDelta, Int.toNat_of_nonneg hceil.le]
  have hlen : (chunkDurations t).length = chunkCount t := by
    simp [chunkDurations]
  have hupper : t ≤ 10 * (chunkCount t : ℝ) := by
    have h1 : t / 10 ≤ ((chunkCount t : ℤ) : ℝ) := by
      rw [hcast]; exact Int.le_ceil _
    push_cast at h1
    linarith
  have hlower : 10 * ((chunkCount t : ℝ) - 1) < t := by
    have h1 : ((chunkCount t : ℤ) : ℝ) < t / 10 + 1 := by
      rw [hcast]; exact Int.ceil_lt_add_one _
    push_cast at h1
    linarith
  have helem : ∀ k, k < chunkCount t →
      (chunkDurations t).getD k 0 = min 10 (t - (k : ℝ) * 10) := by
    intro k hk
    have hk' : k < (chunkDurations t).length := by rw [hlen]; exact hk
    rw [List.getD_eq_getElem _ _ hk']
    simp [chunkDurations, chunkDuration, maxTimeDelta, mul_comm]
  refine ⟨hlen, hcast, helem, ?_, ?_, rfl⟩
  · intro k hk
    rw [helem k hk]
    have hkc : (k : ℝ) + 1 ≤ (chunkCount t : ℝ) := by
      exact_mod_cast Nat.succ_le_of_lt hk
    have hpos : 0 < t - (k : ℝ) * 10 := by nlinarith
    exact ⟨lt_min (by norm_num) hpos, min_le_left _ _⟩
  · have hn0 : 0 < chunkCount t := by
      have : (0 : ℤ) < (chunkCount t : ℤ) := by rw [hcast]; exact hceil
      exact_mod_cast this
    obtain ⟨m, hm⟩ : ∃ m, chunkCount t = m + 1 := ⟨chunkCount t - 1, by omega⟩
    have hsum := chunk_sum_aux m t
      (by rw [hm] at hlower; push_cast at hlower ⊢; linarith)
      (by rw [hm] at hupper; push_cast at hupper ⊢; linarith)
    rw [chunkDurations, hm]
    have hfun : chunkDuration t = fun (k : ℕ) => min (10 : ℝ) (t - (k : ℝ) * 10) := by
      funext k
      simp [chunkDuration, maxTimeDelta, mul_comm]
    rw [hfun]
    exact hsum

theorem claim_C2_witness :
    (0 : ℝ) < 25 ∧
    ((chunkDurations 25).length = chunkCount 25 ∧
      ((chunkCount 25 : ℤ) = ⌈(25 : ℝ) / 10⌉) ∧
      (∀ k, k < chunkCount 25 →
        (chunkDurations 25).getD k 0 = min 10 ((25 : ℝ) - (k : ℝ) * 10)) ∧
      (∀ k, k < chunkCount 25 →
        0 < (chunkDurations 25).getD k 0 ∧ (chunkDurations 25).getD k 0 ≤ 10) ∧
      (chunkDurations 25).sum = 25 ∧
      updateEngine = fun e timeDelta => (List.range e.bodyes.length).foldl
        (fun ee i => (chunkDurations timeDelta).foldl (fun e2 c => stepBody e2 i c) ee) e) :=
  ⟨by norm_num, claim_C2 25 (by norm_num)⟩

/-- The conditional-add fold of `computeForce` is a componentwise sum over
the other bodies. -/
theorem gForce_foldl_sum (i : ℕ) (f : ℕ → DOMPoint) :
    ∀ (l : List ℕ) (a : DOMPoint),
      l.foldl (fun acc j => if j ≠ i then addVectors [acc, f j] else acc) a =
        ⟨a.x + ((l.filter fun j => j ≠ i).map fun j => (f j).x).sum,
          a.y + ((l.filter fun j => j ≠ i).map fun j => (f j).y).sum⟩ := by
  intro l
  induction l with
  | nil => intro a; simp
  | cons j js ih =>
    intro a
    rw [List.foldl_cons, ih, List.filter_cons]
    by_cases hj : j = i
    · subst hj
      norm_num
    · have hcond : (decide ¬(j = i)) = true := by simp [hj]
      simp only [ne_eq, hj, not_false_eq_true, if_true, hcond, addVectors_pair,
        List.map_cons, List.sum_cons]
      apply DOMPoint.ext_xy <;> simp <;> ring

/-- Positive separation makes the distance positive. -/
theorem distance_pos {p q : DOMPoint} (h : q ≠ p) : 0 < distance p q := by
  rw [distance]
  apply Real.sqrt_pos.mpr
  have hne : p.x - q.x ≠ 0 ∨ p.y - q.y ≠ 0 := by
    by_contra hc
    push_neg at hc
    apply h
    apply DOMPoint.ext_xy
    · linarith [hc.1]
    · linarith [hc.2]
  rcases hne with hx | hy
  · nlinarith [mul_self_nonneg (p.y - q.y), mul_self_pos.mpr hx]
  · nlinarith [mul_self_nonneg (p.x - q.x), mul_self_pos.mpr hy]

/-- Each force-loop summand is the pair magnitude `G m₁ m₂ / d²` times the
unit vector from the influenced body toward the influencing one. -/
theorem pairForceVec_eq (e : PhysicalEngine) (i j : ℕ)
    (h : (bodyAt e j).position ≠ (bodyAt e i).position) :
    pairForceVec e i j =
      multiplyVectorByScalar
        (substractVectors (bodyAt e j).position (bodyAt e i).position)
        (G * (bodyAt e i).mass * (bodyAt e j).mass /
            distance (bodyAt e i).position (bodyAt e j).position ^ 2 /
          distance (bodyAt e i).position (bodyAt e j).position) := by
  set b := bodyAt e i
  set o := bodyAt e j
  set dx := o.position.x - b.position.x with hdx
  set dy := o.position.y - b.position.y with hdy
  have hne : ¬(dx = 0 ∧ dy = 0) := by
    rintro ⟨h1, h2⟩
    exact h (DOMPoint.ext_xy (by rw [hdx] at h1; linarith) (by rw [hdy] at h2; linarith))
  have hd : distance b.position o.position = Real.sqrt (dx * dx + dy * dy) := by
    rw [distance]
    congr 1
    rw [hdx, hdy]
    ring
  have hdpos : 0 < distance b.position o.position := distance_pos h
  have hs : Real.sqrt (dx * dx + dy * dy) = distance b.position o.position := hd.symm
  rw [pairForceVec]
  simp only [cos_atan2 hne, sin_atan2, hs]
  apply DOMPoint.ext_xy <;>
    simp only [multiplyVectorByScalar, substractVectors] <;>
    field_simp <;>
    ring

/-- **C3.** `computeForce(b)` clears `b`'s force and sets it to the sum,
over every other body `o`, of the vector of magnitude
`G * m_b * m_o / distance(b,o)²` directed from `b`'s position toward `o`'s
position (the vector `o - b` scaled by magnitude/distance); in particular,
for an engine of two bodies where the second lies at a greater
x-coordinate, the force computed for the first has positive x-component. -/
theorem claim_C3 :
    (∀ (e : PhysicalEngine) (i : ℕ), i < e.bodyes.length →
      (∀ j, j < e.bodyes.length → j ≠ i →
        (bodyAt e j).position ≠ (bodyAt e i).position) →
      gForceOn e i =
        ⟨(((List.range e.bodyes.length).filter fun j => j ≠ i).map fun j =>
            (multiplyVectorByScalar
              (substractVectors (bodyAt e j).position (bodyAt e i).position)
              (G * (bodyAt e i).mass * (bodyAt e j).mass /
                  distance (bodyAt e i).position (bodyAt e j).position ^ 2 /
                distance (bodyAt e i).position (bodyAt e j).position)).x).sum,
          (((List.range e.bodyes.length).filter fun j => j ≠ i).map fun j =>
            (multiplyVectorByScalar
              (substractVectors (bodyAt e j).position (bodyAt e i).position)
              (G * (bodyAt e i).mass * (bodyAt e j).mass /
                  distance (bodyAt e i).position (bodyAt e j).position ^ 2 /
                distance (bodyAt e i).position (bodyAt e j).position)).y).sum⟩ ∧
      computeForceE e i =
        Except.ok (setBodyAt e i { bodyAt e i with force := gForceOn e i })) ∧
    (∀ b o : PhysicalBody, b.position.x < o.position.x →
      0 < b.mass → 0 < o.mass → 0 < (gForceOn ⟨[b, o]⟩ 0).x) := by
  constructor
  · intro e i hi hpos
    constructor
    · rw [gForceOn, gForce_foldl_sum]
      have hmap : ∀ (g : DOMPoint → ℝ),
          (((List.range e.bodyes.length).filter fun j => j ≠ i).map fun j =>
              g (pairForceVec e i j)) =
            (((List.range e.bodyes.length).filter fun j => j ≠ i).map fun j =>
              g (multiplyVectorByScalar
                (substractVectors (bodyAt e j).position (bodyAt e i).position)
                (G * (bodyAt e i).mass * (bodyAt e j).mass /
                    distance (bodyAt e i).position (bodyAt e j).position ^ 2 /
                  distance (bodyAt e i).position (bodyAt e j).position))) := by
        intro g
        apply List.map_congr_left
        intro j hj
        rw [List.mem_filter] at hj
        have hjr : j < e.bodyes.length := List.mem_range.mp hj.1
        have hjne : j ≠ i := by simpa using hj.2
        rw [pairForceVec_eq e i j (hpos j hjr hjne)]
      apply DOMPoint.ext_xy
      · simp only [zero_add]
        exact congrArg List.sum (hmap (fun v => v.x))
      · simp only [zero_add]
        exact congrArg List.sum (hmap (fun v => v.y))
    · simp [computeForceE, bodyExists, hi, applyForce]
  · intro b o hx hmb hmo
    have hb0 : bodyAt ⟨[b, o]⟩ 0 = b := rfl
    have hb1 : bodyAt ⟨[b, o]⟩ 1 = o := rfl
    have hlen : (PhysicalEngine.mk [b, o]).bodyes.length = 2 := rfl
    rw [gForceOn, hlen]
    rw [show List.range 2 = [0, 1] from rfl]
    rw [gForce_foldl_sum]
    rw [show (([0, 1] : List ℕ).filter fun j => j ≠ 0) = [1] from by decide]
    simp only [List.map_cons, List.map_nil, List.sum_cons, List.sum_nil, zero_add, add_zero]
    rw [pairForceVec]
    simp only [hb0, hb1]
    set dx := o.position.x - b.position.x with hdx
    set dy := o.position.y - b.position.y with hdy
    have hdxpos : 0 < dx := by rw [hdx]; linarith
    have hne : ¬(dx = 0 ∧ dy = 0) := fun hc => by linarith [hc.1]
    show 0 < G * b.mass * o.mass /
        (distance b.position o.position * distance b.position o.position) *
      Real.cos (atan2 dy dx)
    have hopb : o.position ≠ b.position := by
      intro hc
      rw [hc] at hx
      exact lt_irrefl _ hx
    have hdpos : 0 < distance b.position o.position := distance_pos hopb
    have hfv : 0 < G * b.mass * o.mass /
        (distance b.position o.position * distance b.position o.position) := by
      apply div_pos
      · exact mul_pos (mul_pos G_pos hmb) hmo
      · exact mul_pos hdpos hdpos
    apply mul_pos hfv
    rw [cos_atan2 hne]
    apply div_pos hdxpos
    apply Real.sqrt_pos.mpr
    nlinarith

theorem claim_C3_witness :
    (mkBody ⟨0, 0⟩ 1 default).position.x < (mkBody ⟨1, 0⟩ 1 default).position.x ∧
    0 < (gForceOn ⟨[mkBody ⟨0, 0⟩ 1 default, mkBody ⟨1, 0⟩ 1 default]⟩ 0).x :=
  ⟨by norm_num [mkBody],
    claim_C3.2 (mkBody ⟨0, 0⟩ 1 default) (mkBody ⟨1, 0⟩ 1 default)
      (by norm_num [mkBody]) (by norm_num [mkBody]) (by norm_num [mkBody])⟩

theorem engine_eta (e : PhysicalEngine) : PhysicalEngine.mk e.bodyes = e := by
  cases e
  rfl

theorem setBodyAt_out {e : PhysicalEngine} {i : ℕ} (h : ¬ i < e.bodyes.length)
    (b : PhysicalBody) : setBodyAt e i b = e := by
  rw [setBodyAt, List.set_eq_of_length_le (by omega)]

theorem stepBody_out {e : PhysicalEngine} {i : ℕ} (h : ¬ i < e.bodyes.length) (d : ℝ) :
    stepBody e i d = e := by
  rw [stepBody]
  have h1 : applyForce e i = e := setBodyAt_out h _
  simp only [h1]
  exact setBodyAt_out h _

theorem base_stepBody (e : PhysicalEngine) (i : ℕ) (d : ℝ) (j : ℕ) :
    (bodyAt (stepBody e i d) j).parameters.baseVelocity =
      (bodyAt e j).parameters.baseVelocity := by
  by_cases hij : j = i
  · subst hij
    by_cases hi : j < e.bodyes.length
    · rw [bodyAt_stepBody_self hi d]
    · rw [stepBody_out hi d]
  · rw [bodyAt_stepBody_ne e hij d]

theorem base_stepBodyChunks (e : PhysicalEngine) (i : ℕ) (t : ℝ) (j : ℕ) :
    (bodyAt (stepBodyChunks e i t) j).parameters.baseVelocity =
      (bodyAt e j).parameters.baseVelocity := by
  rw [stepBodyChunks]
  induction chunkDurations t generalizing e with
  | nil => rfl
  | cons c cs ih => rw [List.foldl_cons, ih, base_stepBody]

/-- Replace body `i`'s `baseVelocity` (all other state unchanged). -/
def withBaseVelocity (e : PhysicalEngine) (i : ℕ) (w : DOMPoint) : PhysicalEngine :=
  setBodyAt e i { bodyAt e i with parameters :=
    { (bodyAt e i).parameters with baseVelocity := w } }

theorem gForceOn_congr (e e' : PhysicalEngine) (i : ℕ)
    (hlen : e'.bodyes.length = e.bodyes.length)
    (hpos : ∀ j, (bodyAt e' j).position = (bodyAt e j).position)
    (hmass : ∀ j, (bodyAt e' j).mass = (bodyAt e j).mass) :
    gForceOn e' i = gForceOn e i := by
  have hpair : ∀ j, pairForceVec e' i j = pairForceVec e i j := by
    intro j
    simp only [pairForceVec, hpos, hmass]
  rw [gForceOn, gForceOn, hlen]
  congr 1
  funext acc j
  rw [hpair j]

/-- **C4.** `update()` never modifies any body's `parameters.baseVelocity`
(first conjunct), the stored `parameters.velocity` resulting from a
sub-step does not depend on `baseVelocity` at all (second conjunct), and
`baseVelocity` enters only the velocity sample of the position-integration
trapezoid: the movement added to the position is
`trapezeArea(storedVelocity, velocityIncrement + baseVelocity, h)`, where
the velocity increment is exactly the change of the stored velocity
(third conjunct, per axis). -/
theorem claim_C4 :
    (∀ (e : PhysicalEngine) (t : ℝ) (j : ℕ),
      (bodyAt (updateEngine e t) j).parameters.baseVelocity =
        (bodyAt e j).parameters.baseVelocity) ∧
    (∀ (e : PhysicalEngine) (i : ℕ) (d : ℝ) (w : DOMPoint), i < e.bodyes.length →
      (bodyAt (stepBody (withBaseVelocity e i w) i d) i).parameters.velocity =
        (bodyAt (stepBody e i d) i).parameters.velocity) ∧
    (∀ (e : PhysicalEngine) (i : ℕ) (d : ℝ), i < e.bodyes.length →
      (bodyAt (stepBody e i d) i).position.x =
        trapezeArea (bodyAt e i).parameters.velocity.x
          (((bodyAt (stepBody e i d) i).parameters.velocity.x -
              (bodyAt e i).parameters.velocity.x) +
            (bodyAt e i).parameters.baseVelocity.x) (d / timeUnit) +
          (bodyAt e i).position.x ∧
      (bodyAt (stepBody e i d) i).position.y =
        trapezeArea (bodyAt e i).parameters.velocity.y
          (((bodyAt (stepBody e i d) i).parameters.velocity.y -
              (bodyAt e i).parameters.velocity.y) +
            (bodyAt e i).parameters.baseVelocity.y) (d / timeUnit) +
          (bodyAt e i).position.y) := by
  refine ⟨?_, ?_, ?_⟩
  · intro e t j
    rw [updateEngine]
    induction List.range e.bodyes.length generalizing e with
    | nil => rfl
    | cons k ks ih => rw [List.foldl_cons, ih, base_stepBodyChunks]
  · intro e i d w hi
    have hlen : (withBaseVelocity e i w).bodyes.length = e.bodyes.length := by
      simp [withBaseVelocity]
    have hi' : i < (withBaseVelocity e i w).bodyes.length := by rw [hlen]; exact hi
    have hself : bodyAt (withBaseVelocity e i w) i = { bodyAt e i with parameters :=
        { (bodyAt e i).parameters with baseVelocity := w } } :=
      bodyAt_setBodyAt_self hi _
    have hpos : ∀ j, (bodyAt (withBaseVelocity e i w) j).position = (bodyAt e j).position := by
      intro j
      by_cases hij : j = i
      · subst hij; rw [hself]
      · rw [withBaseVelocity, bodyAt_setBodyAt_ne e hij]
    have hmass : ∀ j, (bodyAt (withBaseVelocity e i w) j).mass = (bodyAt e j).mass := by
      intro j
      by_cases hij : j = i
      · subst hij; rw [hself]
      · rw [withBaseVelocity, bodyAt_setBodyAt_ne e hij]
    have hforce : gForceOn (withBaseVelocity e i w) i = gForceOn e i :=
      gForceOn_congr e (withBaseVelocity e i w) i hlen hpos hmass
    rw [bodyAt_stepBody_self hi' d, bodyAt_stepBody_self hi d]
    simp only [hself, hforce]
  · intro e i d hi
    rw [bodyAt_stepBody_self hi d]
    constructor <;>
      · simp only [trapezeArea]
        ring

theorem claim_C4_witness :
    (0 : ℕ) < oneBodyEngine.bodyes.length ∧
    (bodyAt (stepBody (withBaseVelocity oneBodyEngine 0 ⟨7, 9⟩) 0 10) 0).parameters.velocity =
      (bodyAt (stepBody oneBodyEngine 0 10) 0).parameters.velocity :=
  ⟨by simp [oneBodyEngine], claim_C4.2.1 oneBodyEngine 0 10 ⟨7, 9⟩ (by simp [oneBodyEngine])⟩

/-- A sequence of position assignments, oldest first. -/
def applyMoves (b : PhysicalBody) (ps : List DOMPoint) : PhysicalBody :=
  ps.foldl setPosition b

theorem setPosition_path_len {b : PhysicalBody} (hb : b.path.length ≤ 255) (p : DOMPoint) :
    (setPosition b p).path.length ≤ 255 := by
  rw [setPosition]
  show (reducePath (b.path ++ [b.position])).length ≤ 255
  rw [reducePath, maxPathLength]
  by_cases hc : 255 < (b.path ++ [b.position]).length
  · rw [if_pos hc, List.length_eraseIdx]
    have h0 : 0 < (b.path ++ [b.position]).length := by simp
    rw [if_pos h0]
    simp only [List.length_append, List.length_cons, List.length_nil]
    omega
  · rw [if_neg hc]
    omega

/-- Closed form of the trail after a sequence of position assignments:
the last (at most) 255 entries of `b.path ++` the positions the body held
before each of its moves. -/
theorem applyMoves_path (ps : List DOMPoint) :
    ∀ (b : PhysicalBody), b.path.length ≤ 255 →
      (applyMoves b ps).path =
        (b.path ++ (b.position :: ps).dropLast).drop
          ((b.path ++ (b.position :: ps).dropLast).length - 255) := by
  induction ps with
  | nil =>
    intro b hb
    have : (b.path.length - 255) = 0 := by omega
    simp [applyMoves, this]
  | cons p ps ih =>
    intro b hb
    have hstep : applyMoves b (p :: ps) = applyMoves (setPosition b p) ps := rfl
    rw [hstep, ih (setPosition b p) (setPosition_path_len hb p)]
    have hset_path : (setPosition b p).path = reducePath (b.path ++ [b.position]) := rfl
    have hset_pos : (setPosition b p).position = p := rfl
    rw [hset_path, hset_pos]
    have hdl : (b.position :: p :: ps).dropLast = b.position :: (p :: ps).dropLast :=
      List.dropLast_cons_of_ne_nil (by simp)
    rw [hdl]
    have happ : b.path ++ b.position :: (p :: ps).dropLast =
        (b.path ++ [b.position]) ++ (p :: ps).dropLast := by
      simp
    rw [happ]
    set X := b.path ++ [b.position] with hX
    set R := (p :: ps).dropLast with hR
    have hXlen : X.length = b.path.length + 1 := by simp [hX]
    by_cases hc : 255 < X.length
    · have hX256 : X.length = 256 := by omega
      have hred : reducePath X = X.tail := by
        rw [reducePath, maxPathLength, if_pos hc, List.eraseIdx_zero]
      rw [hred]
      have hXne : X ≠ [] := by
        intro hnil
        rw [hnil] at hX256
        simp at hX256
      obtain ⟨hd, tl, hXcons⟩ := List.exists_cons_of_ne_nil hXne
      have htl : X.tail = tl := by rw [hXcons]; rfl
      have htllen : tl.length = 255 := by
        have := hX256
        rw [hXcons] at this
        simp at this
        omega
      rw [htl]
      have hlen1 : (tl ++ R).length = 255 + R.length := by simp [htllen]
      have hlen2 : (X ++ R).length = 256 + R.length := by simp [hX256]
      rw [hlen1, hlen2]
      have h1 : 255 + R.length - 255 = R.length := by omega
      have h2 : 256 + R.length - 255 = R.length + 1 := by omega
      rw [h1, h2, hXcons]
      rw [List.cons_append, List.drop_succ_cons]
    · have hred : reducePath X = X := by
        rw [reducePath, maxPathLength, if_neg hc]
      rw [hred]

/-- **C7.** The trail length never exceeds 255 under any sequence of
position assignments from a fresh body; an insertion past capacity evicts
exactly the single oldest entry (index 0); and after more than 255
position assignments the trail length is exactly 255, with the oldest
retained entry being the position as of exactly 255 moves ago. -/
theorem claim_C7 (b0 : PhysicalBody) (ps : List DOMPoint)
    (hempty : b0.path = []) (hn : 255 < ps.length) :
    (∀ qs : List DOMPoint, (applyMoves b0 qs).path.length ≤ 255) ∧
    (∀ (b : PhysicalBody) (p : DOMPoint), b.path.length = 255 →
      (setPosition b p).path = b.path.drop 1 ++ [b.position]) ∧
    (applyMoves b0 ps).path.length = 255 ∧
    (applyMoves b0 ps).path.getD 0 default =
      (b0.position :: ps).getD (ps.length - 255) default := by
  have hb0 : b0.path.length ≤ 255 := by rw [hempty]; simp
  have hfull : ∀ qs : List DOMPoint,
      (applyMoves b0 qs).path = ((b0.position :: qs).dropLast).drop
        ((b0.position :: qs).dropLast.length - 255) := by
    intro qs
    have := applyMoves_path qs b0 hb0
    rw [hempty] at this
    simpa using this
  refine ⟨?_, ?_, ?_, ?_⟩
  · intro qs
    rw [hfull qs, List.length_drop]
    omega
  · intro b p hlen
    rw [setPosition]
    show reducePath (b.path ++ [b.position]) = b.path.drop 1 ++ [b.position]
    have hc : 255 < (b.path ++ [b.position]).length := by simp [hlen]
    rw [reducePath, maxPathLength, if_pos hc, List.eraseIdx_zero]
    obtain ⟨hd, tl, hcons⟩ := List.exists_cons_of_ne_nil
      (show b.path ≠ [] by intro hnil; rw [hnil] at hlen; simp at hlen)
    rw [hcons]
    rfl
  · rw [hfull ps, List.length_drop]
    have : (b0.position :: ps).dropLast.length = ps.length := by simp
    omega
  · rw [hfull ps]
    have hdllen : (b0.position :: ps).dropLast.length = ps.length := by simp
    rw [hdllen]
    have hk : ps.length - 255 < (b0.position :: ps).dropLast.length := by omega
    rw [List.getD_eq_getElem?_getD, List.getD_eq_getElem?_getD]
    have hq : ((b0.position :: ps).dropLast.drop (ps.length - 255))[(0 : ℕ)]? =
        (b0.position :: ps)[ps.length - 255]? := by
      rw [List.getElem?_drop, Nat.add_zero]
      rw [List.getElem?_eq_getElem hk]
      rw [List.getElem?_eq_getElem (show ps.length - 255 < (b0.position :: ps).length by
        simp only [List.length_cons]; omega)]
      exact congrArg some (List.getElem_dropLast _ _ hk)
    rw [hq]

theorem claim_C7_witness :
    ((mkBody ⟨0, 0⟩ 1 default).path = [] ∧
      255 < (List.replicate 256 (⟨1, 2⟩ : DOMPoint)).length) ∧
    (applyMoves (mkBody ⟨0, 0⟩ 1 default) (List.replicate 256 ⟨1, 2⟩)).path.length = 255 := by
  have h1 : (mkBody ⟨0, 0⟩ 1 default).path = [] := rfl
  have h2 : 255 < (List.replicate 256 (⟨1, 2⟩ : DOMPoint)).length := by
    rw [List.length_replicate]
    norm_num
  exact ⟨⟨h1, h2⟩,
    (claim_C7 (mkBody ⟨0, 0⟩ 1 default) (List.replicate 256 ⟨1, 2⟩) h1 h2).2.2.1⟩

/-- **C8.** Assigning a new position `p` appends the pre-mutation position
to the end of the trail and then stores `p`: afterwards the position is
`p`, the trail is nonempty, and its most recent (last) entry is exactly
the position held immediately before the assignment. -/
theorem claim_C8 (b : PhysicalBody) (p : DOMPoint) :
    (setPosition b p).position = p ∧
    (setPosition b p).path ≠ [] ∧
    (setPosition b p).path.getLast? = some b.position := by
  refine ⟨rfl, ?_, ?_⟩
  · show reducePath (b.path ++ [b.position]) ≠ []
    rw [reducePath]
    by_cases hc : maxPathLength < (b.path ++ [b.position]).length
    · rw [if_pos hc, List.eraseIdx_zero]
      have hne : b.path ≠ [] := by
        intro hnil
        rw [hnil, maxPathLength] at hc
        simp at hc
      obtain ⟨hd, tl, hcons⟩ := List.exists_cons_of_ne_nil hne
      rw [hcons, List.cons_append, List.tail_cons]
      simp
    · rw [if_neg hc]
      simp
  · show (reducePath (b.path ++ [b.position])).getLast? = some b.position
    rw [reducePath]
    by_cases hc : maxPathLength < (b.path ++ [b.position]).length
    · rw [if_pos hc, List.eraseIdx_zero]
      have hne : b.path ≠ [] := by
        intro hnil
        rw [hnil, maxPathLength] at hc
        simp at hc
      obtain ⟨hd, tl, hcons⟩ := List.exists_cons_of_ne_nil hne
      rw [hcons, List.cons_append, List.tail_cons]
      exact List.getLast?_concat tl
    · rw [if_neg hc]
      exact List.getLast?_concat b.path

/-- **C9.** Each per-body operation (`computeForce`, `computeAcceleration`,
`computeVelocity`, `computeMovement`) raises the error "Can't find body"
if and only if the body passed to it is not an element of the engine's
collection, and no other error is ever raised. -/
theorem claim_C9 :
    (∀ (e : PhysicalEngine) (i : ℕ),
      (computeForceE e i = Except.error "Can't find body" ↔ ¬ bodyExists e i) ∧
      (∀ err, computeForceE e i = Except.error err → err = "Can't find body")) ∧
    (∀ (e : PhysicalEngine) (i : ℕ),
      (computeAccelerationE e i = Except.error "Can't find body" ↔ ¬ bodyExists e i) ∧
      (∀ err, computeAccelerationE e i = Except.error err → err = "Can't find body")) ∧
    (∀ (e : PhysicalEngine) (i : ℕ) (td : ℝ) (acc : DOMPoint),
      (computeVelocityE e i td acc = Except.error "Can't find body" ↔ ¬ bodyExists e i) ∧
      (∀ err, computeVelocityE e i td acc = Except.error err → err = "Can't find body")) ∧
    (∀ (e : PhysicalEngine) (i : ℕ) (td : ℝ) (vel : DOMPoint),
      (computeMovementE e i td vel = Except.error "Can't find body" ↔ ¬ bodyExists e i) ∧
      (∀ err, computeMovementE e i td vel = Except.error err → err = "Can't find body")) := by
  refine ⟨?_, ?_, ?_, ?_⟩ <;>
    intros <;>
    constructor <;>
    first
    | (rename_i e i
       by_cases hb : bodyExists e i <;>
         simp [computeForceE, computeAccelerationE, hb])
    | (rename_i e i _ _
       by_cases hb : bodyExists e i <;>
         simp [computeVelocityE, computeMovementE, hb])

/-- During `update`, every per-body operation is called with a body of the
collection, so the error-propagating chunk step yields exactly the pure
chunk step. -/
theorem stepBodyE_ok {e : PhysicalEngine} {i : ℕ} (hi : i < e.bodyes.length) (c : ℝ) :
    stepBodyE e i c = Except.ok (stepBody e i c) := by
  have hi1 : i < (applyForce e i).bodyes.length := by
    rw [length_applyForce]
    exact hi
  rw [stepBodyE, stepBody]
  simp only [Bind.bind, Except.bind, computeForceE, computeAccelerationE, computeVelocityE,
    computeMovementE, bodyExists, hi, hi1, if_true, reduceIte]
  rfl

theorem stepChunksE_ok {e : PhysicalEngine} {i : ℕ} (hi : i < e.bodyes.length) (t : ℝ) :
    (chunkDurations t).foldlM (fun e2 c => stepBodyE e2 i c) e =
      Except.ok (stepBodyChunks e i t) := by
  rw [stepBodyChunks]
  induction chunkDurations t generalizing e with
  | nil => rfl
  | cons c cs ih =>
    rw [List.foldlM_cons, stepBodyE_ok hi c, List.foldl_cons]
    have hi2 : i < (stepBody e i c).bodyes.length := by
      rw [length_stepBody]
      exact hi
    exact ih hi2

theorem updateE_fold_ok : ∀ (l : List ℕ) (e : PhysicalEngine) (t : ℝ),
    (∀ j ∈ l, j < e.bodyes.length) →
    l.foldlM (fun ee i => (chunkDurations t).foldlM (fun e2 c => stepBodyE e2 i c) ee) e =
      Except.ok (l.foldl (fun ee i => stepBodyChunks ee i t) e) := by
  intro l
  induction l with
  | nil => intro e t _; rfl
  | cons j js ih =>
    intro e t hj
    rw [List.foldlM_cons, stepChunksE_ok (hj j (List.mem_cons_self j js)) t, List.foldl_cons]
    have hjs : ∀ j' ∈ js, j' < (stepBodyChunks e j t).bodyes.length := by
      intro j' hj'
      rw [length_stepBodyChunks]
      exact hj j' (List.mem_cons_of_mem j hj')
    exact ih (stepBodyChunks e j t) t hjs

/-- **C10.** During any call to `update()`, the "Can't find body" branch is
unreachable: the per-update loop only passes indices of the collection
itself to the per-body operations and no operation removes a body, so the
error-propagating `update` always succeeds and agrees with the pure one. -/
theorem claim_C10 (e : PhysicalEngine) (t : ℝ) :
    updateEngineE e t = Except.ok (updateEngine e t) := by
  rw [updateEngineE, updateEngine]
  exact updateE_fold_ok (List.range e.bodyes.length) e t
    (fun j hj => List.mem_range.mp hj)

/-! ### Concrete two-body evaluation machinery -/

theorem bodyParams_ext {p q : BodyParameters}
    (h1 : p.acceleration = q.acceleration) (h2 : p.velocity = q.velocity)
    (h3 : p.baseVelocity = q.baseVelocity) (h4 : p.movement = q.movement) : p = q := by
  cases p; cases q; simp_all

theorem physBody_ext {b c : PhysicalBody}
    (h1 : b.force = c.force) (h2 : b.position = c.position) (h3 : b.path = c.path)
    (h4 : b.mass = c.mass) (h5 : b.parameters = c.parameters) : b = c := by
  cases b; cases c; simp_all

theorem distance_axis_ge (a b : ℝ) (h : b ≤ a) :
    distance ⟨a, 0⟩ ⟨b, 0⟩ = a - b := by
  rw [distance]
  show Real.sqrt ((a - b) * (a - b) + (0 - 0) * (0 - 0)) = a - b
  rw [show (a - b) * (a - b) + ((0:ℝ) - 0) * (0 - 0) = (a - b) ^ 2 by ring]
  exact Real.sqrt_sq (by linarith)

/-- Pair force along the x-axis, influencing body to the right. -/
theorem pairForceVec_axis_right {e : PhysicalEngine} {i j : ℕ} {p q m1 m2 : ℝ}
    (hpi : (bodyAt e i).position = ⟨p, 0⟩) (hpj : (bodyAt e j).position = ⟨q, 0⟩)
    (hm1 : (bodyAt e i).mass = m1) (hm2 : (bodyAt e j).mass = m2) (hpq : p < q) :
    pairForceVec e i j = ⟨G * m1 * m2 / ((q - p) * (q - p)), 0⟩ := by
  rw [pairForceVec]
  simp only [hpi, hpj, hm1, hm2]
  show (⟨G * m1 * m2 / (distance ⟨p, 0⟩ ⟨q, 0⟩ * distance ⟨p, 0⟩ ⟨q, 0⟩) *
      Real.cos (atan2 (0 - 0) (q - p)),
    G * m1 * m2 / (distance ⟨p, 0⟩ ⟨q, 0⟩ * distance ⟨p, 0⟩ ⟨q, 0⟩) *
      Real.sin (atan2 (0 - 0) (q - p))⟩ : DOMPoint) = _
  rw [distance_axis p q hpq.le, sub_zero, atan2_zero_of_pos (by linarith),
    Real.cos_zero, Real.sin_zero]
  apply DOMPoint.ext_xy <;> simp

/-- Pair force along the x-axis, influencing body to the left. -/
theorem pairForceVec_axis_left {e : PhysicalEngine} {i j : ℕ} {p q m1 m2 : ℝ}
    (hpi : (bodyAt e i).position = ⟨p, 0⟩) (hpj : (bodyAt e j).position = ⟨q, 0⟩)
    (hm1 : (bodyAt e i).mass = m1) (hm2 : (bodyAt e j).mass = m2) (hpq : q < p) :
    pairForceVec e i j = ⟨-(G * m1 * m2 / ((p - q) * (p - q))), 0⟩ := by
  rw [pairForceVec]
  simp only [hpi, hpj, hm1, hm2]
  show (⟨G * m1 * m2 / (distance ⟨p, 0⟩ ⟨q, 0⟩ * distance ⟨p, 0⟩ ⟨q, 0⟩) *
      Real.cos (atan2 (0 - 0) (q - p)),
    G * m1 * m2 / (distance ⟨p, 0⟩ ⟨q, 0⟩ * distance ⟨p, 0⟩ ⟨q, 0⟩) *
      Real.sin (atan2 (0 - 0) (q - p))⟩ : DOMPoint) = _
  rw [distance_axis_ge p q hpq.le, sub_zero, atan2_zero_of_neg (by linarith),
    Real.cos_pi, Real.sin_pi]
  apply DOMPoint.ext_xy <;> simp

/-- In a two-body engine, `computeForce` on body 0 reduces to the single
pair force from body 1. -/
theorem gForceOn_pair_0 (b0 b1 : PhysicalBody) :
    gForceOn ⟨[b0, b1]⟩ 0 = pairForceVec ⟨[b0, b1]⟩ 0 1 := by
  rw [gForceOn]
  rw [show (PhysicalEngine.mk [b0, b1]).bodyes.length = 2 from rfl]
  rw [show List.range 2 = [0, 1] from rfl]
  show (if (1 : ℕ) ≠ 0 then
      addVectors [(if (0 : ℕ) ≠ 0 then addVectors [⟨0, 0⟩, pairForceVec ⟨[b0, b1]⟩ 0 0]
          else ⟨0, 0⟩),
        pairForceVec ⟨[b0, b1]⟩ 0 1]
    else (if (0 : ℕ) ≠ 0 then addVectors [⟨0, 0⟩, pairForceVec ⟨[b0, b1]⟩ 0 0] else ⟨0, 0⟩)) =
    pairForceVec ⟨[b0, b1]⟩ 0 1
  rw [if_pos (by norm_num : (1 : ℕ) ≠ 0), if_neg (by norm_num : ¬((0 : ℕ) ≠ 0)),
    addVectors_pair]
  apply DOMPoint.ext_xy <;> simp

/-- In a two-body engine, `computeForce` on body 1 reduces to the single
pair force from body 0. -/
theorem gForceOn_pair_1 (b0 b1 : PhysicalBody) :
    gForceOn ⟨[b0, b1]⟩ 1 = pairForceVec ⟨[b0, b1]⟩ 1 0 := by
  rw [gForceOn]
  rw [show (PhysicalEngine.mk [b0, b1]).bodyes.length = 2 from rfl]
  rw [show List.range 2 = [0, 1] from rfl]
  show (if (1 : ℕ) ≠ 1 then
      addVectors [(if (0 : ℕ) ≠ 1 then addVectors [⟨0, 0⟩, pairForceVec ⟨[b0, b1]⟩ 1 0]
          else ⟨0, 0⟩),
        pairForceVec ⟨[b0, b1]⟩ 1 1]
    else (if (0 : ℕ) ≠ 1 then addVectors [⟨0, 0⟩, pairForceVec ⟨[b0, b1]⟩ 1 0] else ⟨0, 0⟩)) =
    pairForceVec ⟨[b0, b1]⟩ 1 0
  rw [if_neg (by norm_num : ¬((1 : ℕ) ≠ 1)), if_pos (by norm_num : (0 : ℕ) ≠ 1),
    addVectors_pair]
  apply DOMPoint.ext_xy <;> simp

theorem stepBody_pair_0 (b0 b1 : PhysicalBody) (d : ℝ) :
    stepBody ⟨[b0, b1]⟩ 0 d = ⟨[bodyAt (stepBody ⟨[b0, b1]⟩ 0 d) 0, b1]⟩ := rfl

theorem stepBody_pair_1 (b0 b1 : PhysicalBody) (d : ℝ) :
    stepBody ⟨[b0, b1]⟩ 1 d = ⟨[b0, bodyAt (stepBody ⟨[b0, b1]⟩ 1 d) 1]⟩ := rfl

theorem chunkDurations_ten : chunkDurations 10 = [10] := by
  have hc : chunkCount 10 = 1 := by
    rw [chunkCount, maxTimeDelta]
    norm_num
  rw [chunkDurations, hc]
  show [chunkDuration 10 0] = [10]
  rw [chunkDuration, maxTimeDelta]
  norm_num

theorem chunkDurations_twenty : chunkDurations 20 = [10, 10] := by
  have hc : chunkCount 20 = 2 := by
    rw [chunkCount, maxTimeDelta]
    rw [show (20 : ℝ) / 10 = 2 by norm_num]
    rw [show ⌈(2 : ℝ)⌉ = 2 by norm_num]
    rfl
  rw [chunkDurations, hc]
  show [chunkDuration 20 0, chunkDuration 20 1] = [10, 10]
  rw [chunkDuration, chunkDuration, maxTimeDelta]
  norm_num

/-! ### A concrete symmetric two-body configuration -/

/-- Mass chosen so that `G * M0 = 4` exactly. -/
noncomputable def M0 : ℝ := 10 ^ 13 / 167

/-- Distance between the bodies after body 0's first sub-step. -/
noncomputable def D1 : ℝ := 79999 / 40000

/-- All-zero kinematic parameters. -/
def zeroP : BodyParameters := ⟨⟨0, 0⟩, ⟨0, 0⟩, ⟨0, 0⟩, ⟨0, 0⟩⟩

/-- Two equal masses at `(0,0)` and `(2,0)`, mirror images about `(1,0)`,
with all kinematic parameters zero. -/
noncomputable def mirrorEngine : PhysicalEngine :=
  ⟨[mkBody ⟨0, 0⟩ M0 zeroP, mkBody ⟨2, 0⟩ M0 zeroP]⟩

/-- Body 0 after its first 10 ms sub-step. -/
noncomputable def bodyA1 : PhysicalBody :=
  ⟨⟨M0, 0⟩, ⟨1 / 40000, 0⟩, [⟨0, 0⟩], M0,
    ⟨⟨1, 0⟩, ⟨1 / 200, 0⟩, ⟨0, 0⟩, ⟨1 / 40000, 0⟩⟩⟩

theorem mirror_s1 :
    stepBody mirrorEngine 0 10 = ⟨[bodyA1, mkBody ⟨2, 0⟩ M0 zeroP]⟩ := by
  rw [show mirrorEngine = ⟨[mkBody ⟨0, 0⟩ M0 zeroP, mkBody ⟨2, 0⟩ M0 zeroP]⟩ from rfl]
  rw [stepBody_pair_0]
  apply congrArg PhysicalEngine.mk
  have hforce : gForceOn ⟨[mkBody ⟨0, 0⟩ M0 zeroP, mkBody ⟨2, 0⟩ M0 zeroP]⟩ 0 = ⟨M0, 0⟩ := by
    rw [gForceOn_pair_0]
    rw [@pairForceVec_axis_right ⟨[mkBody ⟨0, 0⟩ M0 zeroP, mkBody ⟨2, 0⟩ M0 zeroP]⟩ 0 1
      0 2 M0 M0 rfl rfl rfl rfl (by norm_num)]
    apply DOMPoint.ext_xy <;> norm_num [G, M0]
  have hX : bodyAt (stepBody ⟨[mkBody ⟨0, 0⟩ M0 zeroP, mkBody ⟨2, 0⟩ M0 zeroP]⟩ 0 10) 0 =
      bodyA1 := by
    rw [bodyAt_stepBody_self (by simp) 10, hforce]
    simp only [show bodyAt ⟨[mkBody ⟨0, 0⟩ M0 zeroP, mkBody ⟨2, 0⟩ M0 zeroP]⟩ 0 =
      mkBody ⟨0, 0⟩ M0 zeroP from rfl]
    simp only [mkBody, zeroP]
    apply physBody_ext
    · rfl
    · apply DOMPoint.ext_xy <;> norm_num [bodyA1, timeUnit, M0]
    · norm_num [bodyA1, reducePath, maxPathLength]
    · norm_num [bodyA1]
    · apply bodyParams_ext <;> apply DOMPoint.ext_xy <;>
        norm_num [bodyA1, timeUnit, M0]
  rw [hX]

/-- Body 1's x-position after its first sub-step (of the first update). -/
noncomputable def q1x : ℝ := 2 - 1 / (10000 * (D1 * D1))

/-- Body 1 after its sub-step of the first update. -/
noncomputable def bodyB1 : PhysicalBody :=
  ⟨⟨-(4 * M0 / (D1 * D1)), 0⟩, ⟨q1x, 0⟩, [⟨2, 0⟩], M0,
    ⟨⟨-(4 / (D1 * D1)), 0⟩, ⟨-(1 / (50 * (D1 * D1))), 0⟩, ⟨0, 0⟩,
      ⟨-(1 / (10000 * (D1 * D1))), 0⟩⟩⟩

theorem mirror_s2 :
    stepBody ⟨[bodyA1, mkBody ⟨2, 0⟩ M0 zeroP]⟩ 1 10 = ⟨[bodyA1, bodyB1]⟩ := by
  rw [stepBody_pair_1]
  apply congrArg PhysicalEngine.mk
  have hforce : gForceOn ⟨[bodyA1, mkBody ⟨2, 0⟩ M0 zeroP]⟩ 1 =
      ⟨-(4 * M0 / (D1 * D1)), 0⟩ := by
    rw [gForceOn_pair_1]
    rw [@pairForceVec_axis_left ⟨[bodyA1, mkBody ⟨2, 0⟩ M0 zeroP]⟩ 1 0
      2 (1 / 40000) M0 M0 rfl rfl rfl rfl (by norm_num)]
    apply DOMPoint.ext_xy <;> norm_num [G, M0, D1]
  have hX : bodyAt (stepBody ⟨[bodyA1, mkBody ⟨2, 0⟩ M0 zeroP]⟩ 1 10) 1 = bodyB1 := by
    rw [bodyAt_stepBody_self (by simp) 10, hforce]
    simp only [show bodyAt ⟨[bodyA1, mkBody ⟨2, 0⟩ M0 zeroP]⟩ 1 =
      mkBody ⟨2, 0⟩ M0 zeroP from rfl]
    simp only [mkBody, zeroP]
    apply physBody_ext
    · rfl
    · apply DOMPoint.ext_xy <;> norm_num [bodyB1, q1x, timeUnit, M0, D1]
    · norm_num [bodyB1, reducePath, maxPathLength]
    · norm_num [bodyB1]
    · apply bodyParams_ext <;> apply DOMPoint.ext_xy <;>
        norm_num [bodyB1, q1x, timeUnit, M0, D1]
  rw [hX]

theorem update_mirror_ten : updateEngine mirrorEngine 10 = ⟨[bodyA1, bodyB1]⟩ := by
  show stepBodyChunks (stepBodyChunks mirrorEngine 0 10) 1 10 = ⟨[bodyA1, bodyB1]⟩
  have h1 : stepBodyChunks mirrorEngine 0 10 = ⟨[bodyA1, mkBody ⟨2, 0⟩ M0 zeroP]⟩ := by
    rw [stepBodyChunks, chunkDurations_ten]
    show stepBody mirrorEngine 0 10 = _
    exact mirror_s1
  rw [h1, stepBodyChunks, chunkDurations_ten]
  show stepBody ⟨[bodyA1, mkBody ⟨2, 0⟩ M0 zeroP]⟩ 1 10 = _
  exact mirror_s2

/-- **C5 counterexample.** Two equal-mass bodies at `(0,0)` and `(2,0)`
(mirror images about the midpoint `(1,0)`), all kinematic parameters zero:
after a single `update()` of 10 ms the two positions are *not* mirror
images about `(1,0)` — `update` advances body 0 completely before body 1,
so body 1's force is computed against body 0's already-advanced position. -/
theorem claim_C5_counterexample :
    (bodyAt mirrorEngine 0).mass = (bodyAt mirrorEngine 1).mass ∧
    (bodyAt mirrorEngine 0).position.x + (bodyAt mirrorEngine 1).position.x = 2 * 1 ∧
    (bodyAt mirrorEngine 0).position.y = 0 ∧
    (bodyAt mirrorEngine 1).position.y = 0 ∧
    (bodyAt mirrorEngine 0).parameters = zeroP ∧
    (bodyAt mirrorEngine 1).parameters = zeroP ∧
    ¬ ((bodyAt (updateEngine mirrorEngine 10) 1).position =
        ⟨2 * 1 - (bodyAt (updateEngine mirrorEngine 10) 0).position.x,
          2 * 0 - (bodyAt (updateEngine mirrorEngine 10) 0).position.y⟩) := by
  refine ⟨rfl, show (0 : ℝ) + 2 = 2 * 1 by norm_num, rfl, rfl, rfl, rfl, ?_⟩
  rw [update_mirror_ten]
  intro h
  have hx : q1x = 2 * 1 - 1 / 40000 := congrArg DOMPoint.x h
  norm_num [q1x, D1] at hx

/-- The whole engine lies on the x-axis: every body has zero y-components
in position, force and all kinematic parameters. -/
def flatEngine (e : PhysicalEngine) : Prop :=
  ∀ j, (bodyAt e j).position.y = 0 ∧ (bodyAt e j).force.y = 0 ∧
    (bodyAt e j).parameters.acceleration.y = 0 ∧
    (bodyAt e j).parameters.velocity.y = 0 ∧
    (bodyAt e j).parameters.baseVelocity.y = 0 ∧
    (bodyAt e j).parameters.movement.y = 0

theorem pairForce_y (e : PhysicalEngine) (i j : ℕ)
    (hyi : (bodyAt e i).position.y = 0) (hyj : (bodyAt e j).position.y = 0) :
    (pairForceVec e i j).y = 0 := by
  simp only [pairForceVec, hyi, hyj, sin_atan2]
  norm_num

theorem gForce_y (e : PhysicalEngine) (i : ℕ)
    (hy : ∀ j, (bodyAt e j).position.y = 0) : (gForceOn e i).y = 0 := by
  rw [gForceOn, gForce_foldl_sum]
  show (0 : ℝ) + _ = 0
  rw [zero_add]
  apply List.sum_eq_zero
  intro y hy'
  rw [List.mem_map] at hy'
  obtain ⟨j, hj, rfl⟩ := hy'
  exact pairForce_y e i j (hy i) (hy j)

theorem flat_stepBody (e : PhysicalEngine) (i : ℕ) (d : ℝ) (hf : flatEngine e) :
    flatEngine (stepBody e i d) := by
  by_cases hi : i < e.bodyes.length
  · intro j
    by_cases hij : j = i
    · subst hij
      rw [bodyAt_stepBody_self hi d]
      have hfy : (gForceOn e j).y = 0 := gForce_y e j (fun k => (hf k).1)
      obtain ⟨h1, h2, h3, h4, h5, h6⟩ := hf j
      refine ⟨?_, hfy, ?_, ?_, h5, ?_⟩ <;>
        simp [hfy, h1, h3, h4, h5, h6]
    · rw [bodyAt_stepBody_ne e hij d]
      exact hf j
  · rw [stepBody_out hi d]
    exact hf

theorem flat_stepBodyChunks (e : PhysicalEngine) (i : ℕ) (t : ℝ) (hf : flatEngine e) :
    flatEngine (stepBodyChunks e i t) := by
  rw [stepBodyChunks]
  induction chunkDurations t generalizing e with
  | nil => exact hf
  | cons c cs ih => exact ih _ (flat_stepBody e i c hf)

theorem flat_updateEngine (e : PhysicalEngine) (t : ℝ) (hf : flatEngine e) :
    flatEngine (updateEngine e t) := by
  rw [updateEngine]
  induction List.range e.bodyes.length generalizing e with
  | nil => exact hf
  | cons k ks ih => exact ih _ (flat_stepBodyChunks e k t hf)

/-- **C5 amended.** For two equal-mass bodies placed on a horizontal line
(in particular symmetric about a midpoint) with all kinematic parameters
zero, any number of `update()` calls keeps both bodies on that line (the
y-coordinates stay exactly zero); exact mirror symmetry about the midpoint,
however, is *not* preserved (see the counterexample), because bodies are
advanced sequentially within an update. -/
theorem claim_C5_amended (a b m : ℝ) (ts : List ℝ) (j : ℕ) :
    (bodyAt (ts.foldl updateEngine
      ⟨[mkBody ⟨a, 0⟩ m zeroP, mkBody ⟨b, 0⟩ m zeroP]⟩) j).position.y = 0 := by
  have hf0 : flatEngine ⟨[mkBody ⟨a, 0⟩ m zeroP, mkBody ⟨b, 0⟩ m zeroP]⟩ := by
    intro k
    match k with
    | 0 => exact ⟨rfl, rfl, rfl, rfl, rfl, rfl⟩
    | 1 => exact ⟨rfl, rfl, rfl, rfl, rfl, rfl⟩
    | (n + 2) => exact ⟨rfl, rfl, rfl, rfl, rfl, rfl⟩
  have hfold : ∀ (us : List ℝ) (e : PhysicalEngine), flatEngine e →
      flatEngine (us.foldl updateEngine e) := by
    intro us
    induction us with
    | nil => intro e hf; exact hf
    | cons u us ih => intro e hf; exact ih _ (flat_updateEngine e u hf)
  exact (hfold ts _ hf0 j).1

/-- Body 0's x-position after two sub-steps both taken against body 1's
original position (the single `update(20)` scenario). -/
noncomputable def xA : ℝ := 1 / 40000 + (1 / 200 + (1 + 4 / (D1 * D1)) / 200) / 200

/-- Body 0 after its second sub-step of a single 20 ms update. -/
noncomputable def bodyA2 : PhysicalBody :=
  ⟨⟨4 * M0 / (D1 * D1), 0⟩, ⟨xA, 0⟩, [⟨0, 0⟩, ⟨1 / 40000, 0⟩], M0,
    ⟨⟨4 / (D1 * D1), 0⟩, ⟨1 / 200 + (1 + 4 / (D1 * D1)) / 200, 0⟩, ⟨0, 0⟩, ⟨xA, 0⟩⟩⟩

theorem mirror_s3 :
    stepBody ⟨[bodyA1, mkBody ⟨2, 0⟩ M0 zeroP]⟩ 0 10 =
      ⟨[bodyA2, mkBody ⟨2, 0⟩ M0 zeroP]⟩ := by
  rw [stepBody_pair_0]
  apply congrArg PhysicalEngine.mk
  have hforce : gForceOn ⟨[bodyA1, mkBody ⟨2, 0⟩ M0 zeroP]⟩ 0 =
      ⟨4 * M0 / (D1 * D1), 0⟩ := by
    rw [gForceOn_pair_0]
    rw [@pairForceVec_axis_right ⟨[bodyA1, mkBody ⟨2, 0⟩ M0 zeroP]⟩ 0 1
      (1 / 40000) 2 M0 M0 rfl rfl rfl rfl (by norm_num)]
    apply DOMPoint.ext_xy <;> norm_num [G, M0, D1]
  have hX : bodyAt (stepBody ⟨[bodyA1, mkBody ⟨2, 0⟩ M0 zeroP]⟩ 0 10) 0 = bodyA2 := by
    rw [bodyAt_stepBody_self (by simp) 10, hforce]
    simp only [show bodyAt ⟨[bodyA1, mkBody ⟨2, 0⟩ M0 zeroP]⟩ 0 = bodyA1 from rfl]
    simp only [bodyA1]
    apply physBody_ext
    · rfl
    · apply DOMPoint.ext_xy <;> norm_num [bodyA2, xA, timeUnit, M0, D1]
    · norm_num [bodyA2, reducePath, maxPathLength]
    · norm_num [bodyA2]
    · apply bodyParams_ext <;> apply DOMPoint.ext_xy <;>
        norm_num [bodyA2, xA, timeUnit, M0, D1]
  rw [hX]

/-- Distance between body 0 and body 1 at the start of the second 10 ms
update in the split scenario. -/
noncomputable def D2 : ℝ := q1x - 1 / 40000

/-- Body 0's x-position in the split scenario (second update), where the
force is computed against body 1's already-advanced position `q1x`. -/
noncomputable def xB : ℝ := 1 / 40000 + (1 / 200 + (1 + 4 / (D2 * D2)) / 200) / 200

/-- Body 0 after its sub-step of the second 10 ms update (split scenario). -/
noncomputable def bodyA2B : PhysicalBody :=
  ⟨⟨4 * M0 / (D2 * D2), 0⟩, ⟨xB, 0⟩, [⟨0, 0⟩, ⟨1 / 40000, 0⟩], M0,
    ⟨⟨4 / (D2 * D2), 0⟩, ⟨1 / 200 + (1 + 4 / (D2 * D2)) / 200, 0⟩, ⟨0, 0⟩, ⟨xB, 0⟩⟩⟩

theorem mirror_s4 :
    stepBody ⟨[bodyA1, bodyB1]⟩ 0 10 = ⟨[bodyA2B, bodyB1]⟩ := by
  rw [stepBody_pair_0]
  apply congrArg PhysicalEngine.mk
  have hforce : gForceOn ⟨[bodyA1, bodyB1]⟩ 0 = ⟨4 * M0 / (D2 * D2), 0⟩ := by
    rw [gForceOn_pair_0]
    rw [@pairForceVec_axis_right ⟨[bodyA1, bodyB1]⟩ 0 1
      (1 / 40000) q1x M0 M0 rfl rfl rfl rfl (by norm_num [q1x, D1])]
    apply DOMPoint.ext_xy <;> norm_num [G, M0, D1, q1x, D2]
  have hX : bodyAt (stepBody ⟨[bodyA1, bodyB1]⟩ 0 10) 0 = bodyA2B := by
    rw [bodyAt_stepBody_self (by simp) 10, hforce]
    simp only [show bodyAt ⟨[bodyA1, bodyB1]⟩ 0 = bodyA1 from rfl]
    simp only [bodyA1]
    apply physBody_ext
    · rfl
    · apply DOMPoint.ext_xy <;> norm_num [bodyA2B, xB, timeUnit, M0, D1, q1x, D2]
    · norm_num [bodyA2B, reducePath, maxPathLength]
    · norm_num [bodyA2B]
    · apply bodyParams_ext <;> apply DOMPoint.ext_xy <;>
        norm_num [bodyA2B, xB, timeUnit, M0, D1, q1x, D2]
  rw [hX]

theorem update_mirror_twenty_body0 :
    bodyAt (updateEngine mirrorEngine 20) 0 = bodyA2 := by
  show bodyAt (stepBodyChunks (stepBodyChunks mirrorEngine 0 20) 1 20) 0 = bodyA2
  rw [bodyAt_stepBodyChunks_ne _ (by norm_num) 20]
  have h1 : stepBodyChunks mirrorEngine 0 20 = ⟨[bodyA2, mkBody ⟨2, 0⟩ M0 zeroP]⟩ := by
    rw [stepBodyChunks, chunkDurations_twenty]
    show stepBody (stepBody mirrorEngine 0 10) 0 10 = _
    rw [mirror_s1]
    exact mirror_s3
  rw [h1]
  rfl

theorem update_mirror_split_body0 :
    bodyAt (updateEngine (updateEngine mirrorEngine 10) 10) 0 = bodyA2B := by
  rw [update_mirror_ten]
  show bodyAt (stepBodyChunks (stepBodyChunks ⟨[bodyA1, bodyB1]⟩ 0 10) 1 10) 0 = _
  rw [bodyAt_stepBodyChunks_ne _ (by norm_num) 10]
  have h1 : stepBodyChunks ⟨[bodyA1, bodyB1]⟩ 0 10 = ⟨[bodyA2B, bodyB1]⟩ := by
    rw [stepBodyChunks, chunkDurations_ten]
    show stepBody ⟨[bodyA1, bodyB1]⟩ 0 10 = _
    exact mirror_s4
  rw [h1]
  rfl

/-- **C6 counterexample.** With two bodies, advancing by 20 ms in one
`update()` call does not give the same position as two 10 ms calls, even
though both segments are multiples of the 10 ms sub-step bound: in the
split run, body 0's second sub-step sees body 1's already-moved position. -/
theorem claim_C6_counterexample :
    (20 : ℝ) = 10 + 10 ∧ (10 : ℝ) = 1 * maxTimeDelta ∧
    (bodyAt (updateEngine mirrorEngine 20) 0).position ≠
      (bodyAt (updateEngine (updateEngine mirrorEngine 10) 10) 0).position := by
  refine ⟨by norm_num, by rw [maxTimeDelta]; norm_num, ?_⟩
  rw [update_mirror_twenty_body0, update_mirror_split_body0]
  intro h
  have hx : xA = xB := congrArg DOMPoint.x h
  norm_num [xA, xB, D1, D2, q1x] at hx

theorem chunkDurations_mul_ten (k : ℕ) :
    chunkDurations (10 * (k : ℝ)) = List.replicate k (10 : ℝ) := by
  have hcc : chunkCount (10 * (k : ℝ)) = k := by
    rw [chunkCount, maxTimeDelta]
    rw [show (10 * (k : ℝ)) / 10 = (k : ℝ) by field_simp]
    rw [Int.ceil_natCast]
    exact Int.toNat_natCast k
  rw [chunkDurations, hcc]
  apply List.eq_replicate_iff.mpr
  constructor
  · simp
  · intro b hb
    rw [List.mem_map] at hb
    obtain ⟨j, hj, rfl⟩ := hb
    rw [List.mem_range] at hj
    rw [chunkDuration, maxTimeDelta]
    have hjk : (j : ℝ) + 1 ≤ (k : ℝ) := by exact_mod_cast Nat.succ_le_of_lt hj
    apply min_eq_left
    nlinarith

theorem updateEngine_single {e : PhysicalEngine} (he : e.bodyes.length = 1) (t : ℝ) :
    updateEngine e t = stepBodyChunks e 0 t := by
  rw [updateEngine, he]
  rfl

theorem stepBodyChunks_mul_ten_add (e : PhysicalEngine) (i : ℕ) (k1 k2 : ℕ) :
    stepBodyChunks (stepBodyChunks e i (10 * (k1 : ℝ))) i (10 * (k2 : ℝ)) =
      stepBodyChunks e i (10 * ((k1 + k2 : ℕ) : ℝ)) := by
  rw [stepBodyChunks, stepBodyChunks, stepBodyChunks, chunkDurations_mul_ten,
    chunkDurations_mul_ten, chunkDurations_mul_ten, List.replicate_add, List.foldl_append]

theorem update_single_add {e : PhysicalEngine} (he : e.bodyes.length = 1) (k1 k2 : ℕ) :
    updateEngine (updateEngine e (10 * (k1 : ℝ))) (10 * (k2 : ℝ)) =
      updateEngine e (10 * ((k1 + k2 : ℕ) : ℝ)) := by
  have he1 : (updateEngine e (10 * (k1 : ℝ))).bodyes.length = 1 := by
    rw [length_updateEngine, he]
  rw [updateEngine_single he1, updateEngine_single he (10 * (k1 : ℝ)),
    updateEngine_single he (10 * ((k1 + k2 : ℕ) : ℝ))]
  exact stepBodyChunks_mul_ten_add e 0 k1 k2

/-- **C6 amended.** For an engine containing exactly one body, advancing by
a total time `T` in one `update()` call yields the same final state (in
particular the same position) as splitting `T` across any number of
`update()` calls, provided every elapsed segment is a (possibly zero)
multiple of `maxSubStepDuration = 10` ms.  With two or more bodies the
equivalence fails (see the counterexample), because the bodies are
advanced sequentially within each call. -/
theorem claim_C6_amended (e : PhysicalEngine) (he : e.bodyes.length = 1) (ks : List ℕ) :
    ks.foldl (fun ee (k : ℕ) => updateEngine ee (10 * (k : ℝ))) e =
      updateEngine e (10 * ((ks.sum : ℕ) : ℝ)) := by
  induction ks generalizing e with
  | nil =>
    have h0 : updateEngine e (10 * ((0 : ℕ) : ℝ)) = e := by
      rw [updateEngine_single he, stepBodyChunks, chunkDurations_mul_ten]
      rfl
    show e = updateEngine e (10 * ((List.sum [] : ℕ) : ℝ))
    rw [show List.sum ([] : List ℕ) = 0 from rfl]
    exact h0.symm
  | cons k ks ih =>
    rw [List.foldl_cons]
    have he1 : (updateEngine e (10 * (k : ℝ))).bodyes.length = 1 := by
      rw [length_updateEngine, he]
    rw [ih _ he1, update_single_add he k ks.sum, List.sum_cons]

theorem claim_C6_amended_witness :
    oneBodyEngine.bodyes.length = 1 ∧
    (([1, 2] : List ℕ).foldl (fun ee (k : ℕ) => updateEngine ee (10 * (k : ℝ))) oneBodyEngine =
      updateEngine oneBodyEngine (10 * (((([1, 2] : List ℕ).sum : ℕ)) : ℝ))) :=
  ⟨rfl, claim_C6_amended oneBodyEngine rfl [1, 2]⟩
